import Mathlib

/-!
Shallow embedding of the argument-validation core of `ansible_module_rs`
(`src/ansible_module.rs` and `src/builder.rs`).

JSON values are modelled by `Value`.  `serde_json` stores a JSON number as
`i64`, `u64` or `f64`; integer-valued numbers are covered by `Value.int`
with the representability ranges made explicit in `is_i64` / `is_u64`.
Numbers stored as `f64` carry no claim-relevant behaviour here, so the
embedding carries no float payloads: `is_f64` is `false` on every embedded
value, exactly as `serde_json`'s `is_f64` is `false` on every
integer-stored number, string, array, object, boolean and null.
-/

inductive Value where
  | null : Value
  | bool (b : Bool) : Value
  | int (n : Int) : Value
  | str (s : String) : Value
  | arr (xs : List Value) : Value
  | obj (fields : List (String × Value)) : Value
  deriving Repr

/-- Deep equality on JSON values, mirroring `serde_json`'s `PartialEq`
(`Vec::contains` and `==` in the source go through it). -/
def vbeq : Value → Value → Bool
  | .null, .null => true
  | .bool a, .bool b => a == b
  | .int a, .int b => a == b
  | .str a, .str b => a == b
  | .arr a, .arr b => vbeqList a b
  | .obj a, .obj b => vbeqObj a b
  | _, _ => false
where
  vbeqList : List Value → List Value → Bool
    | [], [] => true
    | x :: xs, y :: ys => vbeq x y && vbeqList xs ys
    | _, _ => false
  vbeqObj : List (String × Value) → List (String × Value) → Bool
    | [], [] => true
    | (k₁, v₁) :: xs, (k₂, v₂) :: ys => k₁ == k₂ && vbeq v₁ v₂ && vbeqObj xs ys
    | _, _ => false

/-- `serde_json::Value::is_boolean`. -/
def Value.is_boolean : Value → Bool
  | .bool _ => true
  | _ => false

/-- `serde_json::Value::is_string`. -/
def Value.is_string : Value → Bool
  | .str _ => true
  | _ => false

/-- `serde_json::Value::is_i64`: an integer-stored number representable as a
signed 64-bit integer. -/
def Value.is_i64 : Value → Bool
  | .int n => decide (-9223372036854775808 ≤ n ∧ n < 9223372036854775808)
  | _ => false

/-- `serde_json::Value::is_u64`: an integer-stored number representable as an
unsigned 64-bit integer. -/
def Value.is_u64 : Value → Bool
  | .int n => decide (0 ≤ n ∧ n < 18446744073709551616)
  | _ => false

/-- `serde_json::Value::is_f64`: `false` on every value the embedding carries
(no number stored as `f64` is modelled; an integer-stored number is not
`f64` for `serde_json` either). -/
def Value.is_f64 : Value → Bool
  | _ => false

/-- `serde_json::Value::is_array`. -/
def Value.is_array : Value → Bool
  | .arr _ => true
  | _ => false

/-- `serde_json::Value::is_object`. -/
def Value.is_object : Value → Bool
  | .obj _ => true
  | _ => false

/-- JSON string escaping of `serde_json`'s `Display` for the characters that
can occur in the strings of this development. -/
def jsonEscapeChar (c : Char) : String :=
  if c = '"' then "\\\""
  else if c = '\\' then "\\\\"
  else if c = '\n' then "\\n"
  else if c = '\t' then "\\t"
  else if c = '\r' then "\\r"
  else String.singleton c

def jsonEscape (s : String) : String :=
  String.join (s.data.map jsonEscapeChar)

/-- Compact rendering of a JSON value, mirroring `serde_json`'s `Display`
(used by the `{}` interpolations of the source's error messages). -/
def displayValue : Value → String
  | .null => "null"
  | .bool true => "true"
  | .bool false => "false"
  | .int n => toString n
  | .str s => "\"" ++ jsonEscape s ++ "\""
  | .arr xs => "[" ++ String.intercalate "," (displayValueList xs) ++ "]"
  | .obj fields => "\x7b" ++ String.intercalate "," (displayValueObj fields) ++ "\x7d"
where
  displayValueList : List Value → List String
    | [] => []
    | x :: xs => displayValue x :: displayValueList xs
  displayValueObj : List (String × Value) → List String
    | [] => []
    | (k, v) :: xs =>
        ("\"" ++ jsonEscape k ++ "\":" ++ displayValue v) :: displayValueObj xs

/-- Rust `Debug` rendering of a `String` (`{:?}`). -/
def rustDebugStr (s : String) : String :=
  "\"" ++ jsonEscape s ++ "\""

/-- Rust `Debug` rendering of a `Vec<String>` (`{:?}`). -/
def rustDebugStrList (xs : List String) : String :=
  "[" ++ String.intercalate ", " (xs.map rustDebugStr) ++ "]"

/-- Rust `Debug` rendering of a `serde_json::Value`. -/
def rustDebugValue : Value → String
  | .null => "Null"
  | .bool true => "Bool(true)"
  | .bool false => "Bool(false)"
  | .int n => "Number(" ++ toString n ++ ")"
  | .str s => "String(" ++ rustDebugStr s ++ ")"
  | .arr xs => "Array [" ++ String.intercalate ", " (rustDebugValueList xs) ++ "]"
  | .obj fields =>
      "Object \x7b" ++ String.intercalate ", " (rustDebugValueObj fields) ++ "\x7d"
where
  rustDebugValueList : List Value → List String
    | [] => []
    | x :: xs => rustDebugValue x :: rustDebugValueList xs
  rustDebugValueObj : List (String × Value) → List String
    | [] => []
    | (k, v) :: xs =>
        (rustDebugStr k ++ ": " ++ rustDebugValue v) :: rustDebugValueObj xs

/-- Rust `Debug` rendering of a `Vec<Value>` (the `{choices:?}` interpolation). -/
def rustDebugValueList (xs : List Value) : String :=
  "[" ++ String.intercalate ", " (xs.map rustDebugValue) ++ "]"

/-- `ArgumentType` of `src/ansible_module.rs` (identical in `src/builder.rs`). -/
inductive ArgumentType where
  | bool : ArgumentType
  | str : ArgumentType
  | float : ArgumentType
  | int : ArgumentType
  | uint : ArgumentType
  | list : ArgumentType
  | dict : ArgumentType
  deriving Repr, DecidableEq

/-- The derived Rust `Debug` rendering of `ArgumentType` (`{:?}`). -/
def ArgumentType.debugName : ArgumentType → String
  | .bool => "Bool"
  | .str => "Str"
  | .float => "Float"
  | .int => "Int"
  | .uint => "Uint"
  | .list => "List"
  | .dict => "Dict"

/-- `ArgumentType::check_type_correct`. -/
def ArgumentType.check_type_correct : ArgumentType → Value → Bool
  | .bool, v => v.is_boolean
  | .str, v => v.is_string
  | .float, v => v.is_f64
  | .int, v => v.is_i64
  | .uint, v => v.is_u64
  | .list, v => v.is_array
  | .dict, v => v.is_object

/-- `Argument` of `src/ansible_module.rs`: one entry of the argument spec. -/
structure Argument where
  value_type : ArgumentType
  required : Bool := false
  no_log : Bool := false
  default : Option Value := none
  fallback : Option String := none
  choices : Option (List Value) := none

/-- `ArgumentValue`: a validated value paired with its `no_log` flag. -/
structure ArgumentValue where
  value : Value
  no_log : Bool
  deriving Repr

/-- The argument spec, `HashMap<String, Argument>` embedded as an
association list (iteration order made explicit). -/
abbrev ArgumentSpec := List (String × Argument)

/-- The module arguments, `HashMap<String, ArgumentValue>` embedded as an
association list. -/
abbrev ModuleArgs := List (String × ArgumentValue)

/-- First-match lookup on an association list (`HashMap::get`). -/
def lookupKey {α : Type} (l : List (String × α)) (k : String) : Option α :=
  (l.find? (fun kv => kv.1 == k)).map (fun kv => kv.2)

/-- Key membership on an association list (`HashMap::contains_key`). -/
def containsKey {α : Type} (l : List (String × α)) (k : String) : Bool :=
  l.any (fun kv => kv.1 == k)

/-- `Vec::contains` on a choices vector, via `serde_json` deep equality. -/
def listContainsV (cs : List Value) (v : Value) : Bool :=
  cs.any (fun c => vbeq c v)

/-- Error message of the mutually-exclusive check. -/
def mutuallyExclusiveMsg (k v : String) : String :=
  "Arguments '" ++ k ++ "' and '" ++ v ++ "' are mutually exclusive"

/-- Error message of the required-together check. -/
def requiredTogetherMsg (k v : String) : String :=
  "Arguments '" ++ k ++ "' and '" ++ v ++ "' are required together"

/-- Error message of the required-one-of check. -/
def requiredOneOfMsg (k v : String) : String :=
  "At least one of the arguments '" ++ k ++ "' and '" ++ v ++ "' must be present"

/-- Error message of the required-if check in `any` mode. -/
def requiredIfAnyMsg (k : String) (v : Value) : String :=
  "No arguments required by '" ++ k ++ "'='" ++ displayValue v ++ "' are present"

/-- Error message of the required-if check in `all` mode. -/
def requiredIfAllMsg (k : String) (v : Value) : String :=
  "Not all arguments required by '" ++ k ++ "'='" ++ displayValue v ++ "' are present"

/-- Error message of the required-by check. -/
def requiredByMsg (k : String) (args : List String) : String :=
  "Arguments required by '" ++ k ++ "' '" ++ rustDebugStrList args ++ "' are not present"

/-- Error message of a failed environment-variable fallback
(`std::env::VarError::NotPresent` displays as shown). -/
def fallbackErrMsg (arg_name env_var : String) : String :=
  "'" ++ arg_name ++ "' is required but missing, tried fallback to " ++ env_var ++
    " but got error: 'environment variable not found'"

/-- Error message of the choices check. -/
def choicesErrMsg (arg_name : String) (choices : List Value) : String :=
  "Argument '" ++ arg_name ++ "' can only have '" ++ rustDebugValueList choices ++ "' values"

/-- Aggregated error message of the missing-required check. -/
def missingRequiredMsg (names : List String) : String :=
  "missing required arguments: " ++ rustDebugStrList names

/-- Error message of the type check. -/
def typeErrMsg (arg_name : String) (t : ArgumentType) (v : Value) : String :=
  "'" ++ arg_name ++ "' expected to be of type '" ++ t.debugName ++ "', but got " ++
    displayValue v

/-- Aggregated error message of the unknown-argument check. -/
def unknownArgsMsg (names : List String) : String :=
  "Unknown arguments for module found: '" ++ rustDebugStrList names ++ "'"

/-- Does a key start with the reserved underscore prefix
(`k.starts_with('_')`)? -/
def startsWithUnderscore (s : String) : Bool :=
  match s.data with
  | [] => false
  | c :: _ => c == '_'

/-- Partition step: the candidate-argument bucket, i.e. the input entries
whose key does not start with `_`. -/
def candidateArgs (all_input_args : List (String × Value)) : List (String × Value) :=
  all_input_args.filter (fun kv => !(startsWithUnderscore kv.1))

/-- The mutually-exclusive loop of `parse_module_args` / `build`:
fail on the first pair either member of which is present. -/
def checkMutuallyExclusive (module_args : List (String × Value)) :
    List (String × String) → Except String Unit
  | [] => .ok ()
  | (k, v) :: rest =>
      if containsKey module_args k || containsKey module_args v then
        .error (mutuallyExclusiveMsg k v)
      else
        checkMutuallyExclusive module_args rest

/-- The required-together loop: fail on the first pair not both of whose
members are present. -/
def checkRequiredTogether (module_args : List (String × Value)) :
    List (String × String) → Except String Unit
  | [] => .ok ()
  | (k, v) :: rest =>
      if !(containsKey module_args k && containsKey module_args v) then
        .error (requiredTogetherMsg k v)
      else
        checkRequiredTogether module_args rest

/-- The required-one-of loop: fail on the first pair neither member of which
is present. -/
def checkRequiredOneOf (module_args : List (String × Value)) :
    List (String × String) → Except String Unit
  | [] => .ok ()
  | (k, v) :: rest =>
      if !(containsKey module_args k || containsKey module_args v) then
        .error (requiredOneOfMsg k v)
      else
        checkRequiredOneOf module_args rest

/-- The required-if loop: when the trigger key is present with the trigger
value, demand any/all of the listed names, depending on the flag. -/
def checkRequiredIf (module_args : List (String × Value)) :
    List (String × Value × List String × Bool) → Except String Unit
  | [] => .ok ()
  | (k, v, args, any) :: rest =>
      match lookupKey module_args k with
      | some key =>
          if vbeq key v then
            if any then
              if args.any (fun x => containsKey module_args x) then
                checkRequiredIf module_args rest
              else
                .error (requiredIfAnyMsg k v)
            else
              if args.all (fun x => containsKey module_args x) then
                checkRequiredIf module_args rest
              else
                .error (requiredIfAllMsg k v)
          else
            checkRequiredIf module_args rest
      | none => checkRequiredIf module_args rest

/-- The required-by loop of `AnsibleModule::parse_module_args`
(`src/ansible_module.rs`): trigger and dependents are both looked up in the
candidate input bucket. -/
def checkRequiredBy (module_args : List (String × Value)) :
    List (String × List String) → Except String Unit
  | [] => .ok ()
  | (k, args) :: rest =>
      if containsKey module_args k then
        if args.all (fun x => containsKey module_args x) then
          checkRequiredBy module_args rest
        else
          .error (requiredByMsg k args)
      else
        checkRequiredBy module_args rest

/-- The required-by loop of `AnsibleModuleBuilder::build` (`src/builder.rs`):
trigger and dependents are both looked up in the declared argument spec. -/
def checkRequiredBySpec (argument_spec : ArgumentSpec) :
    List (String × List String) → Except String Unit
  | [] => .ok ()
  | (k, args) :: rest =>
      if containsKey argument_spec k then
        if args.all (fun x => containsKey argument_spec x) then
          checkRequiredBySpec argument_spec rest
        else
          .error (requiredByMsg k args)
      else
        checkRequiredBySpec argument_spec rest

/-- Lift a check over an optional constraint-group list (`if let Some(..)`). -/
def checkOpt {α : Type} (check : α → Except String Unit) : Option α → Except String Unit
  | some x => check x
  | none => .ok ()

/-- Reconciliation of a single declared argument against the candidate
bucket, following the loop body of `parse_module_args` exactly:

* `required` and absent: try the fallback environment variable; on success
  insert the read value **as a JSON string**; on failure abort with
  `fallbackErrMsg`; with no fallback, record the name as missing.
* present in the bucket: the value must pass `choices` when declared
  (abort with `choicesErrMsg` otherwise) and is inserted — under the same
  key, so it replaces a fallback-resolved value.
* absent with a `default`: the default is inserted — again under the same
  key, replacing a fallback-resolved value.

Returns the final entry for the argument (if any) and its missing flag.
The second half of the loop body (the `module_args.get` match through the
default branch) is factored into `reconcileStore`. -/
def reconcileStore (arg_name : String) (arg_spec : Argument)
    (module_args : List (String × Value))
    (fbEntry : Option ArgumentValue) (missing : Bool) :
    Except String (Option ArgumentValue × Bool) :=
  match lookupKey module_args arg_name with
  | some arg =>
      match arg_spec.choices with
      | some choices =>
          if listContainsV choices arg then
            .ok (some ⟨arg, arg_spec.no_log⟩, missing)
          else
            .error (choicesErrMsg arg_name choices)
      | none => .ok (some ⟨arg, arg_spec.no_log⟩, missing)
  | none =>
      match arg_spec.default with
      | some default_val => .ok (some ⟨default_val, arg_spec.no_log⟩, missing)
      | none => .ok (fbEntry, missing)

def reconcileStep (arg_name : String) (arg_spec : Argument)
    (module_args : List (String × Value)) (env : String → Option String) :
    Except String (Option ArgumentValue × Bool) :=
  let fb : Except String (Option ArgumentValue × Bool) :=
    if arg_spec.required && !(containsKey module_args arg_name) then
      match arg_spec.fallback with
      | some env_var =>
          match env env_var with
          | some val => .ok (some ⟨Value.str val, arg_spec.no_log⟩, false)
          | none => .error (fallbackErrMsg arg_name env_var)
      | none => .ok (none, true)
    else
      .ok (none, false)
  match fb with
  | .error e => .error e
  | .ok (fbEntry, missing) => reconcileStore arg_name arg_spec module_args fbEntry missing

/-- The per-argument reconciliation loop: spec entries in iteration order,
accumulating the result parameters and the missing-required names. -/
def reconcileArgs (argument_spec : ArgumentSpec)
    (module_args : List (String × Value)) (env : String → Option String) :
    Except String (ModuleArgs × List String) :=
  match argument_spec with
  | [] => .ok ([], [])
  | (arg_name, arg_spec) :: rest =>
      match reconcileStep arg_name arg_spec module_args env with
      | .error e => .error e
      | .ok (entry, missing) =>
          match reconcileArgs rest module_args env with
          | .error e => .error e
          | .ok (params, missingNames) =>
              .ok ((match entry with
                    | some av => (arg_name, av) :: params
                    | none => params),
                   (if missing then arg_name :: missingNames else missingNames))

/-- The type-check loop: every stored value must satisfy the declared type
of its spec entry (entries without a spec entry are skipped, as in the
source's `if let Some(arg_spec)`). -/
def checkTypes (argument_spec : ArgumentSpec) :
    ModuleArgs → Except String Unit
  | [] => .ok ()
  | (arg_name, value) :: rest =>
      match lookupKey argument_spec arg_name with
      | some arg_spec =>
          if arg_spec.value_type.check_type_correct value.value then
            checkTypes argument_spec rest
          else
            .error (typeErrMsg arg_name arg_spec.value_type value.value)
      | none => checkTypes argument_spec rest

/-- The unknown-argument computation: candidate keys that did not end up in
the result parameters. -/
def unknownArgs (module_args : List (String × Value)) (result_params : ModuleArgs) :
    List String :=
  (module_args.map (fun kv => kv.1)).filter (fun key => !(containsKey result_params key))

/-- `AnsibleModule::parse_module_args` (`src/ansible_module.rs`): the full
validation pipeline. The environment is passed as an explicit read-only map
(the source's `env::var`). -/
def parse_module_args (argument_spec : ArgumentSpec)
    (all_input_args : List (String × Value))
    (mutually_exclusive : Option (List (String × String)))
    (required_together : Option (List (String × String)))
    (required_one_of : Option (List (String × String)))
    (required_if : Option (List (String × Value × List String × Bool)))
    (required_by : Option (List (String × List String)))
    (env : String → Option String) : Except String ModuleArgs :=
  let module_args := candidateArgs all_input_args
  match checkOpt (checkMutuallyExclusive module_args) mutually_exclusive with
  | .error e => .error e
  | .ok _ =>
  match checkOpt (checkRequiredTogether module_args) required_together with
  | .error e => .error e
  | .ok _ =>
  match checkOpt (checkRequiredOneOf module_args) required_one_of with
  | .error e => .error e
  | .ok _ =>
  match checkOpt (checkRequiredIf module_args) required_if with
  | .error e => .error e
  | .ok _ =>
  match checkOpt (checkRequiredBy module_args) required_by with
  | .error e => .error e
  | .ok _ =>
  match reconcileArgs argument_spec module_args env with
  | .error e => .error e
  | .ok (result_params, missing_required_args) =>
      if !missing_required_args.isEmpty then
        .error (missingRequiredMsg missing_required_args)
      else
        match checkTypes argument_spec result_params with
        | .error e => .error e
        | .ok _ =>
            let unknown := unknownArgs module_args result_params
            if !unknown.isEmpty then
              .error (unknownArgsMsg unknown)
            else
              .ok result_params

/-- The validation core of `AnsibleModuleBuilder::build` (`src/builder.rs`):
identical to `parse_module_args` except that the required-by stage consults
the declared spec instead of the candidate bucket. -/
def builder_build_params (argument_spec : ArgumentSpec)
    (all_input_args : List (String × Value))
    (mutually_exclusive : Option (List (String × String)))
    (required_together : Option (List (String × String)))
    (required_one_of : Option (List (String × String)))
    (required_if : Option (List (String × Value × List String × Bool)))
    (required_by : Option (List (String × List String)))
    (env : String → Option String) : Except String ModuleArgs :=
  let module_args := candidateArgs all_input_args
  match checkOpt (checkMutuallyExclusive module_args) mutually_exclusive with
  | .error e => .error e
  | .ok _ =>
  match checkOpt (checkRequiredTogether module_args) required_together with
  | .error e => .error e
  | .ok _ =>
  match checkOpt (checkRequiredOneOf module_args) required_one_of with
  | .error e => .error e
  | .ok _ =>
  match checkOpt (checkRequiredIf module_args) required_if with
  | .error e => .error e
  | .ok _ =>
  match checkOpt (checkRequiredBySpec argument_spec) required_by with
  | .error e => .error e
  | .ok _ =>
  match reconcileArgs argument_spec module_args env with
  | .error e => .error e
  | .ok (result_params, missing_required_args) =>
      if !missing_required_args.isEmpty then
        .error (missingRequiredMsg missing_required_args)
      else
        match checkTypes argument_spec result_params with
        | .error e => .error e
        | .ok _ =>
            let unknown := unknownArgs module_args result_params
            if !unknown.isEmpty then
              .error (unknownArgsMsg unknown)
            else
              .ok result_params

/-- The masking sentinel of `AnsibleModule::exit_json`. -/
def noLogSentinel : Value := Value.str "VALUE_SPECIFIED_IN_NO_LOG_PARAMETER"

/-- The success-output document of `AnsibleModule::exit_json`. -/
structure ExitJson where
  changed : Bool
  failed : Bool
  result : List (String × Value)

/-- `AnsibleModule::exit_json`'s masking and document construction: a result
field whose name matches a validated parameter with `no_log = true` is
replaced by the sentinel; every other field is passed through. -/
def exit_json (params : ModuleArgs) (result : List (String × Value))
    (changed : Bool) : ExitJson :=
  { changed := changed
    failed := false
    result := result.map (fun kv =>
      (kv.1,
        match lookupKey params kv.1 with
        | some arg_val => if arg_val.no_log then noLogSentinel else kv.2
        | none => kv.2)) }

/-- The empty process environment (no variable set). -/
def envEmpty : String → Option String := fun _ => none

/-- A process environment with exactly `PORT_ENV` set to `8080`. -/
def envPort : String → Option String :=
  fun s => if s = "PORT_ENV" then some "8080" else none

example : vbeq (.int 3) (.int 3) = true := by decide
example : vbeq (.arr [.int 3]) (.arr [.int 4]) = false := by decide

/-! ### Association-list lemmas -/

theorem containsKey_iff_exists {α : Type} (l : List (String × α)) (k : String) :
    containsKey l k = true ↔ ∃ v, (k, v) ∈ l := by
  unfold containsKey
  rw [List.any_eq_true]
  constructor
  · rintro ⟨⟨k', v⟩, hmem, hbeq⟩
    simp only [beq_iff_eq] at hbeq
    subst hbeq
    exact ⟨v, hmem⟩
  · rintro ⟨v, hv⟩
    exact ⟨(k, v), hv, by simp⟩

theorem lookupKey_mem {α : Type} {l : List (String × α)} {k : String} {v : α}
    (h : lookupKey l k = some v) : (k, v) ∈ l := by
  unfold lookupKey at h
  cases hf : l.find? (fun kv => kv.1 == k) with
  | none => rw [hf] at h; simp at h
  | some kv =>
      rw [hf] at h
      simp only [Option.map_some'] at h
      have hmem := List.mem_of_find?_eq_some hf
      have hpred := List.find?_some hf
      simp only [beq_iff_eq] at hpred
      obtain ⟨k', v'⟩ := kv
      simp only at hpred h
      subst hpred
      injection h with h
      subst h
      exact hmem

theorem lookupKey_eq_none_iff {α : Type} (l : List (String × α)) (k : String) :
    lookupKey l k = none ↔ containsKey l k = false := by
  unfold lookupKey containsKey
  rw [Option.map_eq_none', List.find?_eq_none]
  constructor
  · intro h
    rw [← Bool.not_eq_true, List.any_eq_true]
    rintro ⟨kv, hmem, hbeq⟩
    exact absurd hbeq (by simpa using h kv hmem)
  · intro h kv hmem
    rw [← Bool.not_eq_true, List.any_eq_true] at h
    intro hbeq
    exact h ⟨kv, hmem, hbeq⟩

theorem lookupKey_isSome_of_contains {α : Type} {l : List (String × α)} {k : String}
    (h : containsKey l k = true) : ∃ v, lookupKey l k = some v := by
  cases hl : lookupKey l k with
  | none => rw [lookupKey_eq_none_iff] at hl; rw [h] at hl; cases hl
  | some v => exact ⟨v, rfl⟩

theorem contains_of_lookupKey {α : Type} {l : List (String × α)} {k : String} {v : α}
    (h : lookupKey l k = some v) : containsKey l k = true := by
  rw [containsKey_iff_exists]
  exact ⟨v, lookupKey_mem h⟩

theorem lookupKey_of_mem_nodup {α : Type} {l : List (String × α)} {k : String} {v : α}
    (hnd : (l.map Prod.fst).Nodup) (hm : (k, v) ∈ l) : lookupKey l k = some v := by
  induction l with
  | nil => cases hm
  | cons kv rest ih =>
      obtain ⟨k', v'⟩ := kv
      simp only [List.map_cons, List.nodup_cons] at hnd
      rcases List.mem_cons.mp hm with heq | htail
      · injection heq with h1 h2
        subst h1; subst h2
        unfold lookupKey
        simp [List.find?_cons]
      · by_cases hk : k' = k
        · subst hk
          exact absurd (List.mem_map.mpr ⟨(k', v), htail, rfl⟩) hnd.1
        · unfold lookupKey
          rw [List.find?_cons]
          simp only [show ((k', v').1 == k) = false by simpa using hk]
          exact ih hnd.2 htail

/-! ### Reconciliation lemmas -/

/-- Every `ArgumentValue` inserted by `reconcileStep` carries the `no_log`
flag of the spec entry being reconciled. -/
theorem reconcileStore_no_log {arg_name : String} {arg_spec : Argument}
    {module_args : List (String × Value)} {fbEntry : Option ArgumentValue}
    {missing : Bool} {av : ArgumentValue} {m : Bool}
    (h : reconcileStore arg_name arg_spec module_args fbEntry missing = .ok (some av, m))
    (hfb : ∀ av', fbEntry = some av' → av'.no_log = arg_spec.no_log) :
    av.no_log = arg_spec.no_log := by
  unfold reconcileStore at h
  split at h
  · split at h
    · split at h
      · simp only [Except.ok.injEq, Prod.mk.injEq, Option.some.injEq] at h
        rw [← h.1]
      · exact Except.noConfusion h
    · simp only [Except.ok.injEq, Prod.mk.injEq, Option.some.injEq] at h
      rw [← h.1]
  · split at h
    · simp only [Except.ok.injEq, Prod.mk.injEq, Option.some.injEq] at h
      rw [← h.1]
    · simp only [Except.ok.injEq, Prod.mk.injEq] at h
      exact hfb av h.1

theorem reconcileStore_present {arg_name : String} {arg_spec : Argument}
    {module_args : List (String × Value)} {fbEntry : Option ArgumentValue}
    {missing : Bool} {entry : Option ArgumentValue} {m : Bool} {v : Value}
    (h : reconcileStore arg_name arg_spec module_args fbEntry missing = .ok (entry, m))
    (hv : lookupKey module_args arg_name = some v) :
    entry = some ⟨v, arg_spec.no_log⟩ := by
  unfold reconcileStore at h
  split at h
  · rename_i key hlk
    rw [hv] at hlk
    injection hlk with hlk
    subst hlk
    split at h
    · split at h
      · simp only [Except.ok.injEq, Prod.mk.injEq] at h
        rw [← h.1]
      · exact Except.noConfusion h
    · simp only [Except.ok.injEq, Prod.mk.injEq] at h
      rw [← h.1]
  · rename_i hlk
    rw [hv] at hlk
    exact Option.noConfusion hlk

/-- A successful `reconcileStep` is a successful `reconcileStore` whose
fallback entry (if any) carries the spec entry's `no_log` flag. -/
theorem reconcileStep_cases {arg_name : String} {arg_spec : Argument}
    {module_args : List (String × Value)} {env : String → Option String}
    {entry : Option ArgumentValue} {m : Bool}
    (h : reconcileStep arg_name arg_spec module_args env = .ok (entry, m)) :
    ∃ fbEntry missing,
      reconcileStore arg_name arg_spec module_args fbEntry missing = .ok (entry, m) ∧
      ∀ av, fbEntry = some av → av.no_log = arg_spec.no_log := by
  unfold reconcileStep at h
  by_cases hc : (arg_spec.required && !(containsKey module_args arg_name)) = true
  · rw [if_pos hc] at h
    cases hfb : arg_spec.fallback with
    | some env_var =>
        rw [hfb] at h
        simp only [] at h
        cases henv : env env_var with
        | some val =>
            rw [henv] at h
            refine ⟨some ⟨Value.str val, arg_spec.no_log⟩, false, h, ?_⟩
            intro av hav
            injection hav with hav
            rw [← hav]
        | none =>
            rw [henv] at h
            exact Except.noConfusion h
    | none =>
        rw [hfb] at h
        exact ⟨none, true, h, fun av hav => Option.noConfusion hav⟩
  · rw [if_neg hc] at h
    exact ⟨none, false, h, fun av hav => Option.noConfusion hav⟩

theorem reconcileStep_no_log {arg_name : String} {arg_spec : Argument}
    {module_args : List (String × Value)} {env : String → Option String}
    {av : ArgumentValue} {m : Bool}
    (h : reconcileStep arg_name arg_spec module_args env = .ok (some av, m)) :
    av.no_log = arg_spec.no_log := by
  obtain ⟨fbEntry, missing, hst, hfb⟩ := reconcileStep_cases h
  exact reconcileStore_no_log hst hfb

/-- A declared argument present in the candidate bucket is stored by a
successful `reconcileStep` with exactly the supplied value. -/
theorem reconcileStep_present {arg_name : String} {arg_spec : Argument}
    {module_args : List (String × Value)} {env : String → Option String}
    {entry : Option ArgumentValue} {m : Bool} {v : Value}
    (h : reconcileStep arg_name arg_spec module_args env = .ok (entry, m))
    (hv : lookupKey module_args arg_name = some v) :
    entry = some ⟨v, arg_spec.no_log⟩ := by
  obtain ⟨fbEntry, missing, hst, hfb⟩ := reconcileStep_cases h
  exact reconcileStore_present hst hv

/-- Every entry `reconcileArgs` produces stems from a spec entry of the same
name and carries that entry's `no_log` flag. -/
theorem reconcileArgs_mem_spec {argument_spec : ArgumentSpec}
    {module_args : List (String × Value)} {env : String → Option String}
    {ps : ModuleArgs} {ms : List String}
    (h : reconcileArgs argument_spec module_args env = .ok (ps, ms)) :
    ∀ k av, (k, av) ∈ ps → ∃ a, (k, a) ∈ argument_spec ∧ av.no_log = a.no_log := by
  induction argument_spec generalizing ps ms with
  | nil =>
      unfold reconcileArgs at h
      injection h with h
      injection h with h1 h2
      subst h1
      intro k av hk
      cases hk
  | cons hd rest ih =>
      obtain ⟨n, a⟩ := hd
      unfold reconcileArgs at h
      cases hstep : reconcileStep n a module_args env with
      | error e => rw [hstep] at h; cases h
      | ok em =>
          obtain ⟨entry, m⟩ := em
          rw [hstep] at h
          cases hrest : reconcileArgs rest module_args env with
          | error e => rw [hrest] at h; cases h
          | ok pm =>
              obtain ⟨ps', ms'⟩ := pm
              rw [hrest] at h
              injection h with h
              injection h with h1 h2
              intro k av hk
              cases entry with
              | some av₀ =>
                  subst h1
                  rcases List.mem_cons.mp hk with heq | htail
                  · injection heq with e1 e2
                    subst e1; subst e2
                    exact ⟨a, List.mem_cons_self .., reconcileStep_no_log hstep⟩
                  · obtain ⟨a', ha', hnl⟩ := ih hrest k av htail
                    exact ⟨a', List.mem_cons_of_mem _ ha', hnl⟩
              | none =>
                  subst h1
                  obtain ⟨a', ha', hnl⟩ := ih hrest k av hk
                  exact ⟨a', List.mem_cons_of_mem _ ha', hnl⟩

/-- When every required argument is present and every supplied value passes
its choices constraint, `reconcileStep` succeeds, records nothing as
missing, and stores the supplied value, else the default, else nothing. -/
theorem reconcileStep_success {arg_name : String} {arg_spec : Argument}
    {module_args : List (String × Value)} (env : String → Option String)
    (hreq : arg_spec.required = true → containsKey module_args arg_name = true)
    (hch : ∀ v cs, lookupKey module_args arg_name = some v →
      arg_spec.choices = some cs → listContainsV cs v = true) :
    reconcileStep arg_name arg_spec module_args env =
      .ok ((match lookupKey module_args arg_name with
            | some v => some ⟨v, arg_spec.no_log⟩
            | none => arg_spec.default.map fun d => (⟨d, arg_spec.no_log⟩ : ArgumentValue)),
           false) := by
  have hc : (arg_spec.required && !(containsKey module_args arg_name)) = false := by
    cases hr : arg_spec.required
    · simp
    · simp [hreq hr]
  unfold reconcileStep
  rw [hc]
  show reconcileStore arg_name arg_spec module_args none false = _
  unfold reconcileStore
  cases hlk : lookupKey module_args arg_name with
  | some v =>
      cases hcs : arg_spec.choices with
      | some cs => simp [hch v cs hlk hcs]
      | none => rfl
  | none => cases arg_spec.default <;> rfl

/-- Aggregate success of the reconciliation loop under the same hypotheses,
with the provenance and key-set characterization of its output. -/
theorem reconcileArgs_success {argument_spec : ArgumentSpec}
    {module_args : List (String × Value)} (env : String → Option String)
    (hreq : ∀ n a, (n, a) ∈ argument_spec → a.required = true →
      containsKey module_args n = true)
    (hch : ∀ n a v cs, (n, a) ∈ argument_spec → lookupKey module_args n = some v →
      a.choices = some cs → listContainsV cs v = true) :
    ∃ ps, reconcileArgs argument_spec module_args env = .ok (ps, []) ∧
      (∀ k av, (k, av) ∈ ps → ∃ a, (k, a) ∈ argument_spec ∧
        (lookupKey module_args k = some av.value ∨
          (lookupKey module_args k = none ∧ a.default = some av.value))) ∧
      (∀ k a, (k, a) ∈ argument_spec →
        (containsKey module_args k || a.default.isSome) = true →
        containsKey ps k = true) ∧
      (∀ k av, (k, av) ∈ ps → ∃ a, (k, a) ∈ argument_spec ∧
        (containsKey module_args k || a.default.isSome) = true) := by
  induction argument_spec with
  | nil =>
      refine ⟨[], rfl, ?_, ?_, ?_⟩
      · intro k av hk; cases hk
      · intro k a hk; cases hk
      · intro k av hk; cases hk
  | cons hd rest ih =>
      obtain ⟨n, a⟩ := hd
      obtain ⟨ps', hrec', hprov', hcont', hkeys'⟩ :=
        ih (fun n' a' h' => hreq n' a' (List.mem_cons_of_mem _ h'))
          (fun n' a' v cs h' => hch n' a' v cs (List.mem_cons_of_mem _ h'))
      have hstep := @reconcileStep_success n a module_args env
        (hreq n a (List.mem_cons_self ..))
        (fun v cs hv hcs => hch n a v cs (List.mem_cons_self ..) hv hcs)
      refine ⟨(match lookupKey module_args n with
               | some v => [(n, (⟨v, a.no_log⟩ : ArgumentValue))]
               | none => a.default.toList.map fun d => (n, (⟨d, a.no_log⟩ : ArgumentValue)))
               ++ ps', ?_, ?_, ?_, ?_⟩
      · unfold reconcileArgs
        rw [hstep, hrec']
        cases hlk : lookupKey module_args n with
        | some v => simp [hlk]
        | none => cases hd : a.default <;> simp [hlk, hd]
      · intro k av hk
        rcases List.mem_append.mp hk with hhd | htl
        · cases hlk : lookupKey module_args n with
          | some v =>
              rw [hlk] at hhd
              simp only [List.mem_singleton] at hhd
              injection hhd with e1 e2
              subst e1
              subst e2
              exact ⟨a, List.mem_cons_self .., Or.inl hlk⟩
          | none =>
              rw [hlk] at hhd
              cases hd : a.default with
              | some d =>
                  rw [hd] at hhd
                  simp only [Option.toList_some, List.map_cons, List.map_nil,
                    List.mem_singleton] at hhd
                  injection hhd with e1 e2
                  subst e1
                  subst e2
                  exact ⟨a, List.mem_cons_self .., Or.inr ⟨hlk, hd⟩⟩
              | none => rw [hd] at hhd; cases hhd
        · obtain ⟨a', ha', hv'⟩ := hprov' k av htl
          exact ⟨a', List.mem_cons_of_mem _ ha', hv'⟩
      · intro k a' hk hsome
        rw [containsKey_iff_exists]
        rcases List.mem_cons.mp hk with heq | htl
        · injection heq with e1 e2
          subst e1
          subst e2
          cases hlk : lookupKey module_args k with
          | some v =>
              exact ⟨⟨v, a'.no_log⟩, List.mem_append_left _ (by simp [hlk])⟩
          | none =>
              have hcf : containsKey module_args k = false :=
                (lookupKey_eq_none_iff ..).mp hlk
              rw [hcf] at hsome
              simp only [Bool.false_or] at hsome
              obtain ⟨d, hd⟩ := Option.isSome_iff_exists.mp hsome
              exact ⟨⟨d, a'.no_log⟩, List.mem_append_left _ (by simp [hlk, hd])⟩
        · have hc' := hcont' k a' htl hsome
          rw [containsKey_iff_exists] at hc'
          obtain ⟨v, hv⟩ := hc'
          exact ⟨v, List.mem_append_right _ hv⟩
      · intro k av hk
        rcases List.mem_append.mp hk with hhd | htl
        · cases hlk : lookupKey module_args n with
          | some v =>
              rw [hlk] at hhd
              simp only [List.mem_singleton] at hhd
              injection hhd with e1 e2
              subst e1
              refine ⟨a, List.mem_cons_self .., ?_⟩
              rw [contains_of_lookupKey hlk]
              rfl
          | none =>
              rw [hlk] at hhd
              cases hd : a.default with
              | some d =>
                  rw [hd] at hhd
                  simp only [Option.toList_some, List.map_cons, List.map_nil,
                    List.mem_singleton] at hhd
                  injection hhd with e1 e2
                  subst e1
                  refine ⟨a, List.mem_cons_self .., ?_⟩
                  rw [hd]
                  simp
              | none => rw [hd] at hhd; cases hhd
        · obtain ⟨a', ha', hs'⟩ := hkeys' k av htl
          exact ⟨a', List.mem_cons_of_mem _ ha', hs'⟩
/-- The type-check loop succeeds when every stored value satisfies the
declared type of its (first-match) spec entry. -/
theorem checkTypes_ok {argument_spec : ArgumentSpec} {ps : ModuleArgs}
    (h : ∀ k av, (k, av) ∈ ps → ∀ a, lookupKey argument_spec k = some a →
      a.value_type.check_type_correct av.value = true) :
    checkTypes argument_spec ps = .ok () := by
  induction ps with
  | nil => rfl
  | cons hd tl ih =>
      obtain ⟨k, av⟩ := hd
      unfold checkTypes
      cases hlk : lookupKey argument_spec k with
      | some a =>
          simp only [hlk, h k av (List.mem_cons_self ..) a hlk, if_true]
          exact ih fun k' av' h' a' hl' => h k' av' (List.mem_cons_of_mem _ h') a' hl'
      | none =>
          simp only [hlk]
          exact ih fun k' av' h' a' hl' => h k' av' (List.mem_cons_of_mem _ h') a' hl'

/-- No candidate key is unknown when each of them made it into the result. -/
theorem unknownArgs_nil {module_args : List (String × Value)} {ps : ModuleArgs}
    (h : ∀ k v, (k, v) ∈ module_args → containsKey ps k = true) :
    unknownArgs module_args ps = [] := by
  unfold unknownArgs
  rw [List.filter_eq_nil_iff]
  intro k hk
  obtain ⟨⟨k', v⟩, hm, he⟩ := List.mem_map.mp hk
  subst he
  simp [h k' v hm]

/-- Assembling the pipeline: when every stage succeeds, `parse_module_args`
returns exactly the reconciled parameters. -/
theorem parse_eq_of_stages {argument_spec : ArgumentSpec}
    {all_input_args : List (String × Value)}
    {me rt ro : Option (List (String × String))}
    {ri : Option (List (String × Value × List String × Bool))}
    {rb : Option (List (String × List String))}
    {env : String → Option String} {ps : ModuleArgs}
    (hme : checkOpt (checkMutuallyExclusive (candidateArgs all_input_args)) me = .ok ())
    (hrt : checkOpt (checkRequiredTogether (candidateArgs all_input_args)) rt = .ok ())
    (hro : checkOpt (checkRequiredOneOf (candidateArgs all_input_args)) ro = .ok ())
    (hri : checkOpt (checkRequiredIf (candidateArgs all_input_args)) ri = .ok ())
    (hrb : checkOpt (checkRequiredBy (candidateArgs all_input_args)) rb = .ok ())
    (hrec : reconcileArgs argument_spec (candidateArgs all_input_args) env = .ok (ps, []))
    (hty : checkTypes argument_spec ps = .ok ())
    (hunk : unknownArgs (candidateArgs all_input_args) ps = []) :
    parse_module_args argument_spec all_input_args me rt ro ri rb env = .ok ps := by
  simp only [parse_module_args, hme, hrt, hro, hri, hrb, hrec, hty, hunk,
    List.isEmpty_nil, Bool.not_true, Bool.false_eq_true, if_false]

/-- When the constraint groups pass and reconciliation aborts, the pipeline
propagates reconciliation's error. -/
theorem parse_err_of_reconcile {argument_spec : ArgumentSpec}
    {all_input_args : List (String × Value)}
    {me rt ro : Option (List (String × String))}
    {ri : Option (List (String × Value × List String × Bool))}
    {rb : Option (List (String × List String))}
    {env : String → Option String} {msg : String}
    (hme : checkOpt (checkMutuallyExclusive (candidateArgs all_input_args)) me = .ok ())
    (hrt : checkOpt (checkRequiredTogether (candidateArgs all_input_args)) rt = .ok ())
    (hro : checkOpt (checkRequiredOneOf (candidateArgs all_input_args)) ro = .ok ())
    (hri : checkOpt (checkRequiredIf (candidateArgs all_input_args)) ri = .ok ())
    (hrb : checkOpt (checkRequiredBy (candidateArgs all_input_args)) rb = .ok ())
    (hrec : reconcileArgs argument_spec (candidateArgs all_input_args) env = .error msg) :
    parse_module_args argument_spec all_input_args me rt ro ri rb env = .error msg := by
  simp only [parse_module_args, hme, hrt, hro, hri, hrb, hrec]

/-- When the constraint groups pass and reconciliation records at least one
missing required argument, the pipeline fails with the aggregated
missing-required message. -/
theorem parse_err_missing {argument_spec : ArgumentSpec}
    {all_input_args : List (String × Value)}
    {me rt ro : Option (List (String × String))}
    {ri : Option (List (String × Value × List String × Bool))}
    {rb : Option (List (String × List String))}
    {env : String → Option String} {ps : ModuleArgs} {ms : List String}
    (hme : checkOpt (checkMutuallyExclusive (candidateArgs all_input_args)) me = .ok ())
    (hrt : checkOpt (checkRequiredTogether (candidateArgs all_input_args)) rt = .ok ())
    (hro : checkOpt (checkRequiredOneOf (candidateArgs all_input_args)) ro = .ok ())
    (hri : checkOpt (checkRequiredIf (candidateArgs all_input_args)) ri = .ok ())
    (hrb : checkOpt (checkRequiredBy (candidateArgs all_input_args)) rb = .ok ())
    (hrec : reconcileArgs argument_spec (candidateArgs all_input_args) env = .ok (ps, ms))
    (hne : ms.isEmpty = false) :
    parse_module_args argument_spec all_input_args me rt ro ri rb env =
      .error (missingRequiredMsg ms) := by
  simp only [parse_module_args, hme, hrt, hro, hri, hrb, hrec, hne, Bool.not_false, if_true]

/-- When the constraint groups pass, nothing is missing, and the type check
aborts, the pipeline propagates the type error. -/
theorem parse_err_types {argument_spec : ArgumentSpec}
    {all_input_args : List (String × Value)}
    {me rt ro : Option (List (String × String))}
    {ri : Option (List (String × Value × List String × Bool))}
    {rb : Option (List (String × List String))}
    {env : String → Option String} {ps : ModuleArgs} {msg : String}
    (hme : checkOpt (checkMutuallyExclusive (candidateArgs all_input_args)) me = .ok ())
    (hrt : checkOpt (checkRequiredTogether (candidateArgs all_input_args)) rt = .ok ())
    (hro : checkOpt (checkRequiredOneOf (candidateArgs all_input_args)) ro = .ok ())
    (hri : checkOpt (checkRequiredIf (candidateArgs all_input_args)) ri = .ok ())
    (hrb : checkOpt (checkRequiredBy (candidateArgs all_input_args)) rb = .ok ())
    (hrec : reconcileArgs argument_spec (candidateArgs all_input_args) env = .ok (ps, []))
    (hty : checkTypes argument_spec ps = .error msg) :
    parse_module_args argument_spec all_input_args me rt ro ri rb env = .error msg := by
  simp only [parse_module_args, hme, hrt, hro, hri, hrb, hrec, hty, List.isEmpty_nil,
    Bool.not_true, Bool.false_eq_true, if_false]

/-- When everything up to the type check passes and some candidate key did
not make it into the result, the pipeline fails with the aggregated
unknown-arguments message. -/
theorem parse_err_unknown {argument_spec : ArgumentSpec}
    {all_input_args : List (String × Value)}
    {me rt ro : Option (List (String × String))}
    {ri : Option (List (String × Value × List String × Bool))}
    {rb : Option (List (String × List String))}
    {env : String → Option String} {ps : ModuleArgs}
    (hme : checkOpt (checkMutuallyExclusive (candidateArgs all_input_args)) me = .ok ())
    (hrt : checkOpt (checkRequiredTogether (candidateArgs all_input_args)) rt = .ok ())
    (hro : checkOpt (checkRequiredOneOf (candidateArgs all_input_args)) ro = .ok ())
    (hri : checkOpt (checkRequiredIf (candidateArgs all_input_args)) ri = .ok ())
    (hrb : checkOpt (checkRequiredBy (candidateArgs all_input_args)) rb = .ok ())
    (hrec : reconcileArgs argument_spec (candidateArgs all_input_args) env = .ok (ps, []))
    (hty : checkTypes argument_spec ps = .ok ())
    (hne : (unknownArgs (candidateArgs all_input_args) ps).isEmpty = false) :
    parse_module_args argument_spec all_input_args me rt ro ri rb env =
      .error (unknownArgsMsg (unknownArgs (candidateArgs all_input_args) ps)) := by
  simp only [parse_module_args, hme, hrt, hro, hri, hrb, hrec, hty, hne, List.isEmpty_nil,
    Bool.not_true, Bool.not_false, Bool.false_eq_true, if_false, if_true]

/-- Inverting the pipeline: a successful `parse_module_args` run comes from
a reconciliation that produced exactly the returned parameters and recorded
nothing as missing. -/
theorem parse_ok_reconcile {argument_spec : ArgumentSpec}
    {all_input_args : List (String × Value)}
    {me rt ro : Option (List (String × String))}
    {ri : Option (List (String × Value × List String × Bool))}
    {rb : Option (List (String × List String))}
    {env : String → Option String} {params : ModuleArgs}
    (h : parse_module_args argument_spec all_input_args me rt ro ri rb env = .ok params) :
    reconcileArgs argument_spec (candidateArgs all_input_args) env = .ok (params, []) := by
  unfold parse_module_args at h
  simp only [] at h
  split at h
  · exact Except.noConfusion h
  · split at h
    · exact Except.noConfusion h
    · split at h
      · exact Except.noConfusion h
      · split at h
        · exact Except.noConfusion h
        · split at h
          · exact Except.noConfusion h
          · split at h
            · exact Except.noConfusion h
            · rename_i ps ms hrec
              split at h
              · exact Except.noConfusion h
              · rename_i hms
                split at h
                · exact Except.noConfusion h
                · split at h
                  · exact Except.noConfusion h
                  · injection h with h
                    subst h
                    have hnil : ms = [] := by
                      rcases ms with _ | ⟨x, xs⟩
                      · rfl
                      · simp at hms
                    rw [← hnil]
                    exact hrec

/-- A declared argument that is present in the candidate bucket always ends
up in the result parameters of a successful reconciliation. -/
theorem reconcileArgs_contains_of_present {argument_spec : ArgumentSpec}
    {module_args : List (String × Value)} {env : String → Option String}
    {ps : ModuleArgs} {ms : List String}
    (h : reconcileArgs argument_spec module_args env = .ok (ps, ms)) :
    ∀ k a, (k, a) ∈ argument_spec → containsKey module_args k = true →
      containsKey ps k = true := by
  induction argument_spec generalizing ps ms with
  | nil => intro k a hk; cases hk
  | cons hd rest ih =>
      obtain ⟨n, a₀⟩ := hd
      unfold reconcileArgs at h
      cases hstep : reconcileStep n a₀ module_args env with
      | error e => rw [hstep] at h; cases h
      | ok em =>
          obtain ⟨entry, m⟩ := em
          rw [hstep] at h
          cases hrest : reconcileArgs rest module_args env with
          | error e => rw [hrest] at h; cases h
          | ok pm =>
              obtain ⟨ps', ms'⟩ := pm
              rw [hrest] at h
              injection h with h
              injection h with h1 h2
              intro k a hk hpresent
              rcases List.mem_cons.mp hk with heq | htail
              · injection heq with e1 e2
                subst e1
                obtain ⟨v, hv⟩ := lookupKey_isSome_of_contains hpresent
                have hav := reconcileStep_present hstep hv
                subst hav
                subst h1
                rw [containsKey_iff_exists]
                exact ⟨⟨v, a₀.no_log⟩, List.mem_cons_self ..⟩
              · have := ih hrest k a htail hpresent
                subst h1
                cases entry with
                | some av₀ =>
                    rw [containsKey_iff_exists] at this ⊢
                    obtain ⟨av, hav⟩ := this
                    exact ⟨av, List.mem_cons_of_mem _ hav⟩
                | none => exact this

/-- Stage-two error propagation: a mutually-exclusive violation aborts the
pipeline with its message. -/
theorem parse_err_me {argument_spec : ArgumentSpec}
    {all_input_args : List (String × Value)}
    {me rt ro : Option (List (String × String))}
    {ri : Option (List (String × Value × List String × Bool))}
    {rb : Option (List (String × List String))}
    {env : String → Option String} {msg : String}
    (hme : checkOpt (checkMutuallyExclusive (candidateArgs all_input_args)) me = .error msg) :
    parse_module_args argument_spec all_input_args me rt ro ri rb env = .error msg := by
  simp only [parse_module_args, hme]

/-- Stage-three error propagation: a required-together violation aborts the
pipeline with its message, once the mutually-exclusive stage passed. -/
theorem parse_err_rt {argument_spec : ArgumentSpec}
    {all_input_args : List (String × Value)}
    {me rt ro : Option (List (String × String))}
    {ri : Option (List (String × Value × List String × Bool))}
    {rb : Option (List (String × List String))}
    {env : String → Option String} {msg : String}
    (hme : checkOpt (checkMutuallyExclusive (candidateArgs all_input_args)) me = .ok ())
    (hrt : checkOpt (checkRequiredTogether (candidateArgs all_input_args)) rt = .error msg) :
    parse_module_args argument_spec all_input_args me rt ro ri rb env = .error msg := by
  simp only [parse_module_args, hme, hrt]

/-! ### The claims -/

/-- C4: for a mutually-exclusive pair (A, B), validation fails with
"Arguments 'A' and 'B' are mutually exclusive" as soon as the candidate
bucket contains either name — not only when both are present — and the
pair passes when it contains neither. -/
theorem c4_mutually_exclusive_either (A B : String)
    (argument_spec : ArgumentSpec) (input : List (String × Value))
    (rt ro : Option (List (String × String)))
    (ri : Option (List (String × Value × List String × Bool)))
    (rb : Option (List (String × List String)))
    (env : String → Option String) :
    (containsKey (candidateArgs input) A = true ∨ containsKey (candidateArgs input) B = true →
      parse_module_args argument_spec input (some [(A, B)]) rt ro ri rb env =
        .error (mutuallyExclusiveMsg A B))
    ∧ (containsKey (candidateArgs input) A = false →
       containsKey (candidateArgs input) B = false →
      checkMutuallyExclusive (candidateArgs input) [(A, B)] = .ok ()) := by
  constructor
  · intro h
    have hcond : (containsKey (candidateArgs input) A ||
        containsKey (candidateArgs input) B) = true := by
      rcases h with h | h <;> simp [h]
    exact parse_err_me (by simp [checkOpt, checkMutuallyExclusive, hcond])
  · intro hA hB
    simp [checkMutuallyExclusive, hA, hB]

/-- C4 witness: a bucket containing only the first name of the pair is
rejected with the mutually-exclusive message. -/
theorem c4_witness :
    parse_module_args [] [("a", Value.int 1)] (some [("a", "b")]) none none none none envEmpty
      = .error (mutuallyExclusiveMsg "a" "b") :=
  (c4_mutually_exclusive_either "a" "b" [] [("a", Value.int 1)]
    none none none none envEmpty).1 (Or.inl (by decide))

/-- C5: for a required-together pair (A, B), validation fails with
"Arguments 'A' and 'B' are required together" whenever the candidate bucket
does not contain both names (hence also when it contains neither), and the
pair passes only when both are present. -/
theorem c5_required_together_both (A B : String)
    (argument_spec : ArgumentSpec) (input : List (String × Value))
    (ro : Option (List (String × String)))
    (ri : Option (List (String × Value × List String × Bool)))
    (rb : Option (List (String × List String)))
    (env : String → Option String) :
    ((containsKey (candidateArgs input) A && containsKey (candidateArgs input) B) = false →
      parse_module_args argument_spec input none (some [(A, B)]) ro ri rb env =
        .error (requiredTogetherMsg A B))
    ∧ ((containsKey (candidateArgs input) A && containsKey (candidateArgs input) B) = true →
      checkRequiredTogether (candidateArgs input) [(A, B)] = .ok ()) := by
  constructor
  · intro h
    exact parse_err_rt rfl (by simp [checkOpt, checkRequiredTogether, h])
  · intro h
    simp [checkRequiredTogether, h]

/-- C5 witness: an empty candidate bucket (neither name present) is rejected
with the required-together message. -/
theorem c5_witness :
    parse_module_args [] [] none (some [("a", "b")]) none none none envEmpty
      = .error (requiredTogetherMsg "a" "b") :=
  (c5_required_together_both "a" "b" [] [] none none none envEmpty).1 (by decide)

/-- C8: an argument of type `Uint` holding a negative integer always fails
the type check even though the value is numerically an integer; in
particular the spec `{"uint": {"type": "uint", "default": 123}}` with input
`{"uint": -1}` fails with exactly
`'uint' expected to be of type 'Uint', but got -1`. -/
theorem c8_uint_rejects_negative :
    (∀ n : Int, n < 0 → ArgumentType.check_type_correct .uint (.int n) = false)
    ∧ parse_module_args
        [("uint", { value_type := .uint, default := some (.int 123) })]
        [("uint", .int (-1))] none none none none none envEmpty
      = .error "'uint' expected to be of type 'Uint', but got -1" := by
  constructor
  · intro n hn
    simp only [ArgumentType.check_type_correct, Value.is_u64, decide_eq_false_iff_not,
      not_and]
    intro h
    omega
  · rfl

/-- C8 witness: the universally quantified part at the concrete negative
integer -7. -/
theorem c8_witness : ArgumentType.check_type_correct .uint (.int (-7)) = false :=
  c8_uint_rejects_negative.1 (-7) (by decide)

/-- C10: the choices check applies only to values supplied in the candidate
bucket; an argument declaring both `choices` and a `default` that is absent
from the input gets its default stored with no choices-membership check, so
validation can succeed with a stored value outside the declared choices,
while the default is still type-checked. -/
theorem c10_default_bypasses_choices (name : String) (t : ArgumentType) (nl : Bool)
    (d : Value) (cs : List Value) (env : String → Option String)
    (input : List (String × Value))
    (habs : containsKey (candidateArgs input) name = false) :
    reconcileArgs [(name, ⟨t, false, nl, some d, none, some cs⟩)] (candidateArgs input) env
      = .ok ([(name, ⟨d, nl⟩)], [])
    ∧ (candidateArgs input = [] → listContainsV cs d = false →
        (ArgumentType.check_type_correct t d = true →
          parse_module_args [(name, ⟨t, false, nl, some d, none, some cs⟩)] input
              none none none none none env
            = .ok [(name, ⟨d, nl⟩)])
        ∧ (ArgumentType.check_type_correct t d = false →
          parse_module_args [(name, ⟨t, false, nl, some d, none, some cs⟩)] input
              none none none none none env
            = .error (typeErrMsg name t d))) := by
  have hlk : lookupKey (candidateArgs input) name = none :=
    (lookupKey_eq_none_iff ..).mpr habs
  have hstep := @reconcileStep_success name ⟨t, false, nl, some d, none, some cs⟩
    (candidateArgs input) env
    (fun hr => by simp at hr)
    (fun v cs' hv _ => by rw [hlk] at hv; exact Option.noConfusion hv)
  rw [hlk] at hstep
  have hrec : reconcileArgs [(name, ⟨t, false, nl, some d, none, some cs⟩)]
      (candidateArgs input) env = .ok ([(name, ⟨d, nl⟩)], []) := by
    unfold reconcileArgs
    rw [hstep]
    rfl
  refine ⟨hrec, ?_⟩
  intro hcand hout
  have hlksp : lookupKey [(name, (⟨t, false, nl, some d, none, some cs⟩ : Argument))] name =
      some ⟨t, false, nl, some d, none, some cs⟩ := by
    simp [lookupKey]
  constructor
  · intro hty
    refine parse_eq_of_stages rfl rfl rfl rfl rfl hrec ?_ ?_
    · unfold checkTypes
      rw [hlksp]
      simp only [hty, if_true]
      rfl
    · rw [hcand]
      rfl
  · intro hty
    refine parse_err_types rfl rfl rfl rfl rfl hrec ?_
    unfold checkTypes
    rw [hlksp]
    simp only [hty, Bool.false_eq_true, if_false]

/-- C10 witness: a default of 99 outside choices [1, 2] for an absent
int-typed argument is stored and validation succeeds. -/
theorem c10_witness :
    parse_module_args [("port", ⟨.int, false, false, some (.int 99), none,
        some [.int 1, .int 2]⟩)] [] none none none none none envEmpty
      = .ok [("port", ⟨.int 99, false⟩)] :=
  ((c10_default_bypasses_choices "port" .int false (.int 99) [.int 1, .int 2]
      envEmpty [] (by decide)).2 rfl (by decide)).1 (by decide)

/-- Helper for C9: a non-`Str` argument type rejects every JSON string. -/
theorem check_type_str_false {t : ArgumentType} (ht : t ≠ ArgumentType.str) (v : String) :
    t.check_type_correct (Value.str v) = false := by
  cases t <;> first
    | rfl
    | exact absurd rfl ht

/-- C9 (amended): a value resolved from an environment-variable fallback is
stored as a JSON string; for a required argument with a non-`Str` declared
type, a readable fallback variable, no value in the candidate bucket, and
**no default**, validation fails the type check on the fallback-resolved
string.  (With a default declared, the default overwrites the
fallback-resolved value — see the counterexample.) -/
theorem c9_fallback_is_string (name E v : String) (t : ArgumentType) (nl : Bool)
    (cs : Option (List Value)) (env : String → Option String)
    (input : List (String × Value))
    (ht : t ≠ ArgumentType.str) (henv : env E = some v)
    (habs : containsKey (candidateArgs input) name = false) :
    reconcileArgs [(name, ⟨t, true, nl, none, some E, cs⟩)] (candidateArgs input) env
      = .ok ([(name, ⟨Value.str v, nl⟩)], [])
    ∧ parse_module_args [(name, ⟨t, true, nl, none, some E, cs⟩)] input
        none none none none none env = .error (typeErrMsg name t (Value.str v)) := by
  have hlk : lookupKey (candidateArgs input) name = none :=
    (lookupKey_eq_none_iff ..).mpr habs
  have hrec : reconcileArgs [(name, ⟨t, true, nl, none, some E, cs⟩)]
      (candidateArgs input) env = .ok ([(name, ⟨Value.str v, nl⟩)], []) := by
    unfold reconcileArgs reconcileStep
    simp only [habs, Bool.not_false, Bool.and_true, if_true, henv]
    unfold reconcileStore
    rw [hlk]
    rfl
  refine ⟨hrec, ?_⟩
  refine parse_err_types rfl rfl rfl rfl rfl hrec ?_
  unfold checkTypes
  have hlksp : lookupKey [(name, (⟨t, true, nl, none, some E, cs⟩ : Argument))] name =
      some ⟨t, true, nl, none, some E, cs⟩ := by
    simp [lookupKey]
  rw [hlksp]
  simp only [check_type_str_false ht v, Bool.false_eq_true, if_false]

/-- C9 witness: a required int-typed argument resolved from the environment
(`PORT_ENV = "8080"`) fails the type check with the string it read. -/
theorem c9_witness :
    parse_module_args [("port", ⟨.int, true, false, none, some "PORT_ENV", none⟩)] []
        none none none none none envPort
      = .error (typeErrMsg "port" .int (Value.str "8080")) :=
  (c9_fallback_is_string "port" "PORT_ENV" "8080" .int false none envPort []
    (by decide) (by decide) (by decide)).2

/-- C9 counterexample: the claim says validation *always* fails the type
check in this situation, but a declared default overwrites the
fallback-resolved string (the reconciliation loop falls into the default
branch because the key is absent from the input), so validation succeeds. -/
theorem c9_counterexample :
    parse_module_args [("port", ⟨.int, true, false, some (.int 5), some "PORT_ENV", none⟩)]
        [] none none none none none envPort
      = .ok [("port", ⟨.int 5, false⟩)] := rfl

/-- C2 (amended): a required argument absent from the candidate bucket whose
fallback environment variable cannot be read causes an immediate failure
with the fallback error message naming only that argument — reconciliation
does not continue and nothing is aggregated; only a required-and-absent
argument with **no fallback configured** is recorded as missing and reported
through the aggregated `missing required arguments: [...]` message. -/
theorem c2_fallback_failure_immediate (name E : String) (t : ArgumentType) (nl : Bool)
    (d : Option Value) (cs : Option (List Value)) (env : String → Option String)
    (input : List (String × Value))
    (habs : containsKey (candidateArgs input) name = false) :
    (env E = none →
      parse_module_args [(name, ⟨t, true, nl, d, some E, cs⟩)] input
        none none none none none env = .error (fallbackErrMsg name E))
    ∧ parse_module_args [(name, ⟨t, true, nl, d, none, cs⟩)] input
        none none none none none env = .error (missingRequiredMsg [name]) := by
  have hlk : lookupKey (candidateArgs input) name = none :=
    (lookupKey_eq_none_iff ..).mpr habs
  constructor
  · intro henv
    refine parse_err_of_reconcile rfl rfl rfl rfl rfl ?_
    unfold reconcileArgs reconcileStep
    simp only [habs, Bool.not_false, Bool.and_true, if_true, henv]
  · have hrec : reconcileArgs [(name, ⟨t, true, nl, d, none, cs⟩)]
        (candidateArgs input) env
        = .ok ((d.toList.map fun dv => (name, (⟨dv, nl⟩ : ArgumentValue))), [name]) := by
      unfold reconcileArgs reconcileStep
      simp only [habs, Bool.not_false, Bool.and_true, if_true]
      unfold reconcileStore
      rw [hlk]
      cases d <;> rfl
    exact parse_err_missing rfl rfl rfl rfl rfl hrec rfl

/-- C2 witness: the amended immediate-failure branch at the repository's own
test scenario (`TEST_API_URL` unset). -/
theorem c2_witness :
    parse_module_args [("api_url", ⟨.str, true, false, none, some "TEST_API_URL", none⟩)]
        [] none none none none none envEmpty
      = .error (fallbackErrMsg "api_url" "TEST_API_URL") :=
  (c2_fallback_failure_immediate "api_url" "TEST_API_URL" .str false none none
    envEmpty [] (by decide)).1 rfl

/-- C2 counterexample: for a required argument with an unreadable fallback
variable, validation does not continue to the aggregated
`missing required arguments` message — it fails immediately with the
fallback error (exactly as the repository's `check_fallback_fail` test
expects). -/
theorem c2_counterexample :
    parse_module_args [("api_url", ⟨.str, true, false, none, some "TEST_API_URL", none⟩)]
        [] none none none none none envEmpty
      = .error "'api_url' is required but missing, tried fallback to TEST_API_URL but got error: 'environment variable not found'"
    ∧ parse_module_args [("api_url", ⟨.str, true, false, none, some "TEST_API_URL", none⟩)]
        [] none none none none none envEmpty
      ≠ .error "missing required arguments: [\"api_url\"]" := by
  constructor
  · rfl
  · intro h
    rw [show parse_module_args
        [("api_url", (⟨.str, true, false, none, some "TEST_API_URL", none⟩ : Argument))]
        [] none none none none none envEmpty
      = Except.error "'api_url' is required but missing, tried fallback to TEST_API_URL but got error: 'environment variable not found'" from rfl] at h
    injection h with h
    exact absurd h (by decide)

/-- C1 (amended): the required-by rule of `AnsibleModule::parse_module_args`
is input-driven on both sides — it fires only when the key is present in
the candidate bucket and then demands the dependents in the candidate
bucket; when the key is absent from the input the rule is skipped even if
the key is declared in the spec.  The required-by rule of
`AnsibleModuleBuilder::build` is spec-driven on both sides — it fires when
the key is declared in the spec and then demands that every dependent be
declared in the spec, never consulting the input. -/
theorem c1_required_by_semantics (k : String) (deps : List String)
    (module_args : List (String × Value)) (argument_spec : ArgumentSpec) :
    (checkRequiredBy module_args [(k, deps)] = .ok () ↔
      (containsKey module_args k = true → ∀ d ∈ deps, containsKey module_args d = true))
    ∧ (checkRequiredBySpec argument_spec [(k, deps)] = .ok () ↔
      (containsKey argument_spec k = true → ∀ d ∈ deps, containsKey argument_spec d = true))
    ∧ (∀ input me rt ro ri env, containsKey (candidateArgs input) k = false →
      parse_module_args argument_spec input me rt ro ri (some [(k, deps)]) env =
        parse_module_args argument_spec input me rt ro ri none env) := by
  refine ⟨?_, ?_, ?_⟩
  · cases hc : containsKey module_args k with
    | false => simp [checkRequiredBy, hc]
    | true =>
        cases hall : deps.all fun x => containsKey module_args x with
        | false =>
            simp only [checkRequiredBy, hc, hall, Bool.false_eq_true, if_false, if_true]
            constructor
            · intro h; exact Except.noConfusion h
            · intro h
              have hall' : (deps.all fun x => containsKey module_args x) = true := by
                rw [List.all_eq_true]
                intro d hd
                exact h trivial d hd
              rw [hall'] at hall
              exact Bool.noConfusion hall
        | true =>
            simp only [checkRequiredBy, hc, hall, if_true]
            rw [List.all_eq_true] at hall
            simp only [true_iff]
            intro _ d hd
            exact hall d hd
  · cases hc : containsKey argument_spec k with
    | false => simp [checkRequiredBySpec, hc]
    | true =>
        cases hall : deps.all fun x => containsKey argument_spec x with
        | false =>
            simp only [checkRequiredBySpec, hc, hall, Bool.false_eq_true, if_false, if_true]
            constructor
            · intro h; exact Except.noConfusion h
            · intro h
              have hall' : (deps.all fun x => containsKey argument_spec x) = true := by
                rw [List.all_eq_true]
                intro d hd
                exact h trivial d hd
              rw [hall'] at hall
              exact Bool.noConfusion hall
        | true =>
            simp only [checkRequiredBySpec, hc, hall, if_true]
            rw [List.all_eq_true] at hall
            simp only [true_iff]
            intro _ d hd
            exact hall d hd
  · intro input me rt ro ri env hk
    have hrb : checkRequiredBy (candidateArgs input) [(k, deps)] = .ok () := by
      simp [checkRequiredBy, hk]
    simp only [parse_module_args, checkOpt, hrb]

/-- C1 witness: with the trigger key absent from the input, declaring the
rule changes nothing in `parse_module_args`, even though the key is
declared in the spec and the dependent is nowhere. -/
theorem c1_witness :
    parse_module_args [("login", (⟨.bool, false, false, none, none, none⟩ : Argument))] []
        none none none none (some [("login", ["user"])]) envEmpty =
      parse_module_args [("login", ⟨.bool, false, false, none, none, none⟩)] []
        none none none none none envEmpty :=
  (c1_required_by_semantics "login" ["user"] []
    [("login", ⟨.bool, false, false, none, none, none⟩)]).2.2
    [] none none none none envEmpty (by decide)

/-- C1 counterexample: the key "login" is declared in the spec, its
dependent "user" is not present in the candidate bucket, and yet
`AnsibleModule::parse_module_args` succeeds — the claim demands failure
with the required-by message whenever the key is declared in the spec. -/
theorem c1_counterexample :
    containsKey [("login", (⟨.bool, false, false, none, none, none⟩ : Argument))] "login" = true
    ∧ containsKey (candidateArgs []) "user" = false
    ∧ parse_module_args [("login", ⟨.bool, false, false, none, none, none⟩)] []
        none none none none (some [("login", ["user"])]) envEmpty = .ok [] :=
  ⟨by decide, by decide, rfl⟩

/-- C3 (amended): masking in `exit_json` is keyed on the validated
parameters, not directly on the spec: a result field whose name matches a
validated parameter with `no_log = true` is always rendered as the
sentinel, never the real value, regardless of `changed`; the `no_log` flag
of every validated parameter is the one of its spec entry; but a result
field whose name matches no validated parameter is emitted unchanged, even
when the spec declares that name with `no_log = true` (see the
counterexample). -/
theorem c3_masking_params (argument_spec : ArgumentSpec)
    (input : List (String × Value))
    (me rt ro : Option (List (String × String)))
    (ri : Option (List (String × Value × List String × Bool)))
    (rb : Option (List (String × List String)))
    (env : String → Option String) (params : ModuleArgs)
    (result : List (String × Value)) (changed : Bool)
    (hnd : (argument_spec.map Prod.fst).Nodup)
    (hok : parse_module_args argument_spec input me rt ro ri rb env = .ok params) :
    (∀ k v, (k, v) ∈ (exit_json params result changed).result →
      (∀ av, lookupKey params k = some av → av.no_log = true → v = noLogSentinel)
      ∧ (lookupKey params k = none → (k, v) ∈ result))
    ∧ (∀ k v av, (k, v) ∈ result → lookupKey params k = some av → av.no_log = true →
      (k, noLogSentinel) ∈ (exit_json params result changed).result)
    ∧ (∀ k av, lookupKey params k = some av →
      ∃ a, lookupKey argument_spec k = some a ∧ av.no_log = a.no_log) := by
  refine ⟨?_, ?_, ?_⟩
  · intro k v hm
    obtain ⟨⟨k0, v0⟩, hm0, heq⟩ := List.mem_map.mp hm
    injection heq with e1 e2
    subst e1
    constructor
    · intro av hav hnl
      rw [hav] at e2
      simp only [hnl, if_true] at e2
      rw [← e2]
    · intro hnone
      rw [hnone] at e2
      simp only [] at e2
      rw [← e2]
      exact hm0
  · intro k v av hm hav hnl
    refine List.mem_map.mpr ⟨(k, v), hm, ?_⟩
    rw [hav]
    simp [hnl]
  · intro k av hav
    have hrec := parse_ok_reconcile hok
    obtain ⟨a, ha, hnl⟩ := reconcileArgs_mem_spec hrec k av (lookupKey_mem hav)
    exact ⟨a, lookupKey_of_mem_nodup hnd ha, hnl⟩

/-- C3 witness: a secret validated parameter masks the matching result
field even when `changed = true` and the real value differs. -/
theorem c3_witness :
    ("token", noLogSentinel) ∈
      (exit_json [("token", ⟨Value.str "s", true⟩)] [("token", Value.str "x")] true).result :=
  (c3_masking_params [("token", ⟨.str, false, true, some (.str "s"), none, none⟩)] []
    none none none none none envEmpty [("token", ⟨Value.str "s", true⟩)]
    [("token", Value.str "x")] true (by decide) rfl).2.1
    "token" (Value.str "x") ⟨Value.str "s", true⟩ (List.mem_singleton.mpr rfl) rfl rfl

/-- C3 counterexample: the spec flags "token" as secret (`no_log = true`),
the module succeeds (with no validated parameter named "token" since it is
optional, absent and without default), and `exit_json` emits the real value
of the result field "token", not the sentinel — the claim demands the
sentinel for every result field matching a secret spec argument. -/
theorem c3_counterexample :
    parse_module_args [("token", ⟨.str, false, true, none, none, none⟩)] []
        none none none none none envEmpty = .ok []
    ∧ (exit_json [] [("token", Value.str "real")] false).result
      = [("token", Value.str "real")]
    ∧ Value.str "real" ≠ noLogSentinel := by
  refine ⟨rfl, rfl, ?_⟩
  intro h
  simp only [noLogSentinel] at h
  injection h with h
  exact absurd h (by decide)

/-- C7: when no earlier stage fails (constraint groups pass, reconciliation
succeeds with nothing missing, the type check passes) and some candidate
key is absent from the declared spec, validation fails with the
unknown-arguments message aggregating exactly the candidate keys absent
from the spec. -/
theorem c7_unknown_arguments (argument_spec : ArgumentSpec)
    (input : List (String × Value))
    (me rt ro : Option (List (String × String)))
    (ri : Option (List (String × Value × List String × Bool)))
    (rb : Option (List (String × List String)))
    (env : String → Option String) (ps : ModuleArgs)
    (hme : checkOpt (checkMutuallyExclusive (candidateArgs input)) me = .ok ())
    (hrt : checkOpt (checkRequiredTogether (candidateArgs input)) rt = .ok ())
    (hro : checkOpt (checkRequiredOneOf (candidateArgs input)) ro = .ok ())
    (hri : checkOpt (checkRequiredIf (candidateArgs input)) ri = .ok ())
    (hrb : checkOpt (checkRequiredBy (candidateArgs input)) rb = .ok ())
    (hrec : reconcileArgs argument_spec (candidateArgs input) env = .ok (ps, []))
    (hty : checkTypes argument_spec ps = .ok ())
    (hex : ∃ k v, (k, v) ∈ candidateArgs input ∧ containsKey argument_spec k = false) :
    parse_module_args argument_spec input me rt ro ri rb env =
      .error (unknownArgsMsg (((candidateArgs input).map Prod.fst).filter
        (fun key => !(containsKey argument_spec key)))) := by
  have hpoint : ∀ k, k ∈ (candidateArgs input).map Prod.fst →
      containsKey ps k = containsKey argument_spec k := by
    intro k hk
    obtain ⟨⟨k0, v0⟩, hm, he⟩ := List.mem_map.mp hk
    subst he
    cases hsp : containsKey argument_spec k0 with
    | false =>
        cases hps : containsKey ps k0 with
        | false => rfl
        | true =>
            rw [containsKey_iff_exists] at hps
            obtain ⟨av, hmav⟩ := hps
            obtain ⟨a, ha, _⟩ := reconcileArgs_mem_spec hrec k0 av hmav
            have : containsKey argument_spec k0 = true :=
              (containsKey_iff_exists ..).mpr ⟨a, ha⟩
            rw [hsp] at this
            exact this.symm
    | true =>
        have hsp' := hsp
        rw [containsKey_iff_exists] at hsp'
        obtain ⟨a, ha⟩ := hsp'
        have hc : containsKey (candidateArgs input) k0 = true :=
          (containsKey_iff_exists ..).mpr ⟨v0, hm⟩
        exact reconcileArgs_contains_of_present hrec k0 a ha hc
  have hfilter : unknownArgs (candidateArgs input) ps =
      ((candidateArgs input).map Prod.fst).filter
        (fun key => !(containsKey argument_spec key)) := by
    unfold unknownArgs
    exact List.filter_congr fun k hk => by rw [hpoint k hk]
  have hne : (unknownArgs (candidateArgs input) ps).isEmpty = false := by
    obtain ⟨k, v, hm, hsp⟩ := hex
    have hmem : k ∈ unknownArgs (candidateArgs input) ps := by
      rw [hfilter]
      refine List.mem_filter.mpr ⟨List.mem_map.mpr ⟨(k, v), hm, rfl⟩, by simp [hsp]⟩
    rcases hul : unknownArgs (candidateArgs input) ps with _ | ⟨a, l⟩
    · rw [hul] at hmem; cases hmem
    · rfl
  have := parse_err_unknown hme hrt hro hri hrb hrec hty hne
  rw [hfilter] at this
  exact this

/-- C7 witness: the candidate key "zz" is not declared in the
single-argument spec, every earlier stage passes, and validation fails with
the unknown-arguments message listing "zz". -/
theorem c7_witness :
    parse_module_args [("a", ⟨.str, false, false, none, none, none⟩)]
        [("a", Value.str "v"), ("zz", Value.int 1)] none none none none none envEmpty
      = .error (unknownArgsMsg ["zz"]) :=
  c7_unknown_arguments [("a", ⟨.str, false, false, none, none, none⟩)]
    [("a", Value.str "v"), ("zz", Value.int 1)] none none none none none envEmpty
    [("a", ⟨Value.str "v", false⟩)] rfl rfl rfl rfl rfl rfl rfl
    ⟨"zz", Value.int 1, List.mem_cons_of_mem _ (List.mem_cons_self ..), by decide⟩

/-- C6 (amended): when every required argument is supplied, every supplied
value of a declared argument passes its choices constraint and type check,
**every candidate input key is declared in the spec**, and **every default
stored for an absent argument has the declared type** (the two hypotheses
the claim omits — see the counterexample), and no constraint group is
violated, validation returns Success and the key set of the normalized
mapping is exactly the declared arguments that were supplied or defaulted
(the fallback never fires since every required argument is supplied). -/
theorem c6_success_key_set (argument_spec : ArgumentSpec)
    (input : List (String × Value))
    (me rt ro : Option (List (String × String)))
    (ri : Option (List (String × Value × List String × Bool)))
    (rb : Option (List (String × List String)))
    (env : String → Option String)
    (hnd : (argument_spec.map Prod.fst).Nodup)
    (hme : checkOpt (checkMutuallyExclusive (candidateArgs input)) me = .ok ())
    (hrt : checkOpt (checkRequiredTogether (candidateArgs input)) rt = .ok ())
    (hro : checkOpt (checkRequiredOneOf (candidateArgs input)) ro = .ok ())
    (hri : checkOpt (checkRequiredIf (candidateArgs input)) ri = .ok ())
    (hrb : checkOpt (checkRequiredBy (candidateArgs input)) rb = .ok ())
    (hreq : ∀ n a, (n, a) ∈ argument_spec → a.required = true →
      containsKey (candidateArgs input) n = true)
    (hsup : ∀ n a v, (n, a) ∈ argument_spec → lookupKey (candidateArgs input) n = some v →
      a.value_type.check_type_correct v = true ∧
        ∀ cs, a.choices = some cs → listContainsV cs v = true)
    (hdef : ∀ n a d, (n, a) ∈ argument_spec → lookupKey (candidateArgs input) n = none →
      a.default = some d → a.value_type.check_type_correct d = true)
    (hunk : ∀ k v, (k, v) ∈ candidateArgs input → containsKey argument_spec k = true) :
    ∃ params, parse_module_args argument_spec input me rt ro ri rb env = .ok params ∧
      ∀ k, containsKey params k = true ↔
        ∃ a, (k, a) ∈ argument_spec ∧
          (containsKey (candidateArgs input) k || a.default.isSome) = true := by
  obtain ⟨ps, hrec, hprov, hcont, hkeys⟩ := reconcileArgs_success env hreq
    (fun n a v cs hm hv hcs => (hsup n a v hm hv).2 cs hcs)
  refine ⟨ps, ?_, ?_⟩
  · refine parse_eq_of_stages hme hrt hro hri hrb hrec ?_ ?_
    · refine checkTypes_ok ?_
      intro k av hm a hla
      obtain ⟨a0, ha0, hv⟩ := hprov k av hm
      have heq : a = a0 := by
        have h1 := lookupKey_of_mem_nodup hnd ha0
        rw [hla] at h1
        injection h1
      subst heq
      rcases hv with hsupv | ⟨hlk, hd⟩
      · exact (hsup k a av.value ha0 hsupv).1
      · exact hdef k a av.value ha0 hlk hd
    · refine unknownArgs_nil ?_
      intro k v hm
      have hc : containsKey (candidateArgs input) k = true :=
        (containsKey_iff_exists ..).mpr ⟨v, hm⟩
      have hs := hunk k v hm
      rw [containsKey_iff_exists] at hs
      obtain ⟨a, ha⟩ := hs
      exact hcont k a ha (by simp [hc])
  · intro k
    constructor
    · intro hk
      rw [containsKey_iff_exists] at hk
      obtain ⟨av, hav⟩ := hk
      exact hkeys k av hav
    · rintro ⟨a, ha, hsome⟩
      exact hcont k a ha hsome

/-- C6 witness: a single optional int-typed argument with default 7 and an
empty input — validation succeeds and the key set is exactly the defaulted
argument. -/
theorem c6_witness :
    ∃ params, parse_module_args [("y", ⟨.int, false, false, some (.int 7), none, none⟩)]
        [] none none none none none envEmpty = .ok params ∧
      ∀ k, containsKey params k = true ↔
        ∃ a, (k, a) ∈ [("y", (⟨.int, false, false, some (.int 7), none, none⟩ : Argument))] ∧
          (containsKey (candidateArgs []) k || a.default.isSome) = true :=
  c6_success_key_set [("y", ⟨.int, false, false, some (.int 7), none, none⟩)] []
    none none none none none envEmpty (by decide) rfl rfl rfl rfl rfl
    (fun n a hm hr => by
      rcases List.mem_singleton.mp hm with h
      injection h with e1 e2
      subst e2
      exact Bool.noConfusion hr)
    (fun n a v hm hv => Option.noConfusion hv)
    (fun n a d hm hlk hd => by
      rcases List.mem_singleton.mp hm with h
      injection h with e1 e2
      subst e2
      injection hd with hd
      rw [← hd]
      decide)
    (fun k v hm => absurd hm (List.not_mem_nil _))

/-- C6 counterexample: the spec declares one optional int-typed argument
whose default is the string "x"; the input is empty, so every hypothesis of
the claim holds (no required arguments, no supplied values, no constraint
groups), yet validation fails the type check on the stored default instead
of returning Success. -/
theorem c6_counterexample :
    parse_module_args [("a", ⟨.int, false, false, some (.str "x"), none, none⟩)] []
        none none none none none envEmpty
      = .error "'a' expected to be of type 'Int', but got \"x\"" := rfl
